import Mathlib

/-!
Verification development for the `system-security-lab` repository.

The repository consists of small single-file demonstration programs:

* `control-flow-experiments/simple/step1_overflow.c` — a stack `Frame`
  (32-byte buffer followed by a function pointer) overflowed by a 200-byte
  `fread` from stdin, then invoked.
* `control-flow-experiments/coroutines/step3_coroutine_overflow.cpp` — a
  heap `Frame` (32-byte buffer, `resume` pointer, `cmd` pointer) overflowed
  inside a coroutine, then invoked from `main`; the same file's companion
  "step 0" variant uses a `Frame` whose slot starts as `check_password`.
* `sanitizer/rtsan/real_time.cpp` and `sanitizer/rtsan/esp_modem_rtsan.cpp`
  — RealtimeSanitizer demos.

The embedding models process runs as traces of observable events, frame
memory as a flat list of bytes (little-endian pointer fields), and the
RTSan demos as lists of primitive actions executed by each function.
-/

namespace SystemSecurityLab

/-! ## Byte-level pointer encoding (little-endian, as on the demonstrated x86-64 targets) -/

/-- Little-endian encoding of a value into `w` bytes. -/
def leEncode (v : Nat) : Nat → List Nat
  | 0 => []
  | w + 1 => v % 256 :: leEncode (v / 256) w

/-- Little-endian decoding of a byte list into a value. -/
def leDecode : List Nat → Nat
  | [] => 0
  | b :: bs => b % 256 + 256 * leDecode bs

/-! ## Frame memory and the unchecked overflow read

The victims all perform `fread(frame.buf, 1, 200, stdin)`: up to 200 bytes
are copied starting at the base of the 32-byte buffer, with no comparison
against the buffer length. -/

/-- Number of bytes an `fread` with requested length `readLen` deposits,
given the bytes available on stdin: the minimum of the two, with no
reference to any buffer bound. -/
def writtenLen (readLen : Nat) (input : List Nat) : Nat :=
  min input.length readLen

/-- The unchecked overflow read: overwrite memory starting at the buffer
base with `writtenLen readLen input` bytes of input. Bytes past the end of
`mem` spill beyond the frame. -/
def overflowRead (readLen : Nat) (mem input : List Nat) : List Nat :=
  input.take (writtenLen readLen input) ++ mem.drop (writtenLen readLen input)

/-- A raw region normalized to exactly `n` bytes (a declared buffer holds
exactly `n` bytes whatever junk it starts with). -/
def padTo (n : Nat) (l : List Nat) : List Nat :=
  l.take n ++ List.replicate (n - l.length) 0

/-- The value of the 8-byte callable slot at offset 32 (immediately after
the 32-byte buffer; `char[32]` needs no padding before an 8-aligned field). -/
def slotValue (mem : List Nat) : Nat :=
  leDecode ((mem.drop 32).take 8)

/-! ## Observable run events -/

/-- Observable events of a victim run. `slotInit` is the assignment of the
legitimate function to the frame's callable slot; `printAddr` is the
startup line leaking the address of `win`; `readStdin` is the overflow
`fread`; `invokeSlot` is the indirect call through the slot (with the
resolved target, if the slot holds the address of some function, and the
argument string passed); `callDirect` is a direct call made inside a
function body. -/
inductive Event (F : Type) where
  | slotInit
  | printAddr (a : Nat)
  | printMsg (s : String)
  | readStdin (n : Nat)
  | invokeSlot (target : Option F) (arg : Option String)
  | callDirect (name : String)
  | systemCmd (s : String)
  deriving DecidableEq

/-- Result of a run: the event trace and the exit code (`none` = crash,
e.g. a jump through an unresolved pointer or a null dereference). -/
structure Outcome (F : Type) where
  trace : List (Event F)
  exit : Option Nat
  deriving DecidableEq

/-- An assignment of distinct 64-bit addresses to the program's functions
(the link-time layout; the demos build with `-no-pie`, so it is fixed). -/
structure AddrMap (F : Type) where
  addrOf : F → Nat
  lt : ∀ f, addrOf f < 2 ^ 64
  inj : ∀ f g, addrOf f = addrOf g → f = g

def isSlotInit {F : Type} : Event F → Bool
  | .slotInit => true
  | _ => false

def isPrintAddr {F : Type} : Event F → Bool
  | .printAddr _ => true
  | _ => false

def isReadStdin {F : Type} : Event F → Bool
  | .readStdin _ => true
  | _ => false

def isInvoke {F : Type} : Event F → Bool
  | .invokeSlot _ _ => true
  | _ => false

/-- The argument passed at the (first) indirect call through the slot. -/
def invokeArg {F : Type} (o : Outcome F) : Option (Option String) :=
  o.trace.findSome? fun e =>
    match e with
    | .invokeSlot _ a => some a
    | _ => none

/-- The resolved target of the (first) indirect call through the slot. -/
def invokeTarget {F : Type} (o : Outcome F) : Option (Option F) :=
  o.trace.findSome? fun e =>
    match e with
    | .invokeSlot t _ => some t
    | _ => none

/-- Lifecycle shape of a victim run: the slot is initialized exactly once,
stdin is read exactly once, the slot is invoked exactly once, and they
happen in that order. -/
def lifecycleOk {F : Type} (t : List (Event F)) : Prop :=
  t.countP isSlotInit = 1 ∧ t.countP isReadStdin = 1 ∧ t.countP isInvoke = 1 ∧
  t.findIdx isSlotInit < t.findIdx isReadStdin ∧
  t.findIdx isReadStdin < t.findIdx isInvoke

/-- Startup leak shape: the trace prints exactly one address line, it is
the address of `win`, and it appears before the stdin read. -/
def addrLineOk {F : Type} (w : Nat) (t : List (Event F)) : Prop :=
  t.filter isPrintAddr = [Event.printAddr w] ∧
  t.findIdx isPrintAddr < t.findIdx isReadStdin

/-! ## The simple victim: `control-flow-experiments/simple/step1_overflow.c`

```
struct Frame { char buf[32]; void (*fn)(const char *); };
int main(int argc, char **argv) {
    struct Frame frame;
    const char *cmd = (argc > 1) ? argv[1] : "echo SAFE";
    frame.fn = safe;
    printf("win() @ 0x%lx\n", (unsigned long)(uintptr_t)win);
    fflush(stdout);
    fread(frame.buf, 1, 200, stdin);
    frame.fn(cmd);
    return 0;
}
```
-/

namespace Simple

/-- The two functions of `step1_overflow.c` that can stand in the slot. -/
inductive Fn where
  | safe
  | win
  deriving DecidableEq

/-- Hard-coded `fread` length (`fread(frame.buf, 1, 200, stdin)`). -/
def READ_LEN : Nat := 200

/-- Declared buffer size (`char buf[32]`). -/
def BUF_LEN : Nat := 32

/-- Map a pointer value back to the function at that address, if any. -/
def resolve (A : AddrMap Fn) (v : Nat) : Option Fn :=
  if v = A.addrOf .safe then some .safe
  else if v = A.addrOf .win then some .win
  else none

/-- Behaviour of each function when called with a `const char *` argument:
`safe` prints the command, `win` hands it to `system`. A null argument
crashes (`none`), though `main` always passes a non-null `cmd`. -/
def call : Fn → Option String → Option (List (Event Fn))
  | .safe, some s => some [.printMsg ("safe path: " ++ s ++ "\n")]
  | .win, some s => some [.systemCmd s]
  | _, none => none

/-- Frame memory right after `frame.fn = safe`: 32 buffer bytes (junk from
the uninitialized stack) followed by the 8 little-endian bytes of `safe`'s
address. -/
def initMem (A : AddrMap Fn) (junk : List Nat) : List Nat :=
  padTo BUF_LEN junk ++ leEncode (A.addrOf .safe) 8

/-- Frame memory after the overflow `fread`. -/
def memAfter (A : AddrMap Fn) (junk input : List Nat) : List Nat :=
  overflowRead READ_LEN (initMem A junk) input

/-- One run of the simple victim: install `safe`, print `win`'s address,
do the 200-byte overflow read, then call through the slot with `cmd`
(`argv[1]`, defaulting to `"echo SAFE"`). Exit code 0 when the call
returns; crash when the slot holds an unresolvable address. -/
def run (A : AddrMap Fn) (argv1 : Option String) (junk input : List Nat) :
    Outcome Fn :=
  let cmd := argv1.getD "echo SAFE"
  let mem1 := memAfter A junk input
  let pre : List (Event Fn) :=
    [.slotInit, .printAddr (A.addrOf .win), .readStdin READ_LEN]
  match resolve A (slotValue mem1) with
  | some f =>
      match call f (some cmd) with
      | some evs => ⟨pre ++ Event.invokeSlot (some f) (some cmd) :: evs, some 0⟩
      | none => ⟨pre ++ [Event.invokeSlot (some f) (some cmd)], none⟩
  | none => ⟨pre ++ [Event.invokeSlot none (some cmd)], none⟩

/-- A concrete non-PIE address layout for evaluation. -/
def testA : AddrMap Fn where
  addrOf f := match f with
    | .safe => 4198400
    | .win => 4198432
  lt := by intro f; cases f <;> norm_num
  inj := by intro f g h; cases f <;> cases g <;> first | rfl | exact absurd h (by decide)

end Simple

/-! ## The coroutine victim:
`control-flow-experiments/coroutines/step3_coroutine_overflow.cpp`

```
struct Frame { char buf[32]; void (*resume)(const char *); const char *cmd; };
int main(int argc, char **argv) {
    Frame *frame = static_cast<Frame *>(std::malloc(sizeof(Frame)));
    frame->resume = safe_resume;
    frame->cmd = (argc > 1) ? argv[1] : "echo SAFE";
    std::cout << "win() @ 0x" << std::hex << win_addr << ...;
    task chain = c1(frame);   // c1 -> c2 -> c3
    chain.start();            // c3 prints, then fread(frame->buf, 1, 200, stdin)
    frame->resume(frame->cmd);
    std::free(frame);
    return 0;
}
```
-/

namespace Coro

/-- The two `void (*)(const char *)` functions of the coroutine file. -/
inductive Fn where
  | safe_resume
  | win
  deriving DecidableEq

/-- Hard-coded `fread` length inside coroutine `c3`. -/
def READ_LEN : Nat := 200

/-- Declared buffer size (`char buf[32]`). -/
def BUF_LEN : Nat := 32

/-- Map a pointer value back to the function at that address, if any. -/
def resolve (A : AddrMap Fn) (v : Nat) : Option Fn :=
  if v = A.addrOf .safe_resume then some .safe_resume
  else if v = A.addrOf .win then some .win
  else none

/-- Behaviour of each function on a resolved argument string; calling with
a dangling/garbage `cmd` pointer (`none`) crashes. -/
def call : Fn → Option String → Option (List (Event Fn))
  | .safe_resume, some s => some [.printMsg ("safe resume: " ++ s ++ "\n")]
  | .win, some s => some [.systemCmd s]
  | _, none => none

/-- Heap frame right after `frame->resume = safe_resume; frame->cmd = ...`:
32 junk bytes, the address of `safe_resume`, then the address `cmdPtr` of
the command string (48 bytes total, no padding needed). -/
def initMem (A : AddrMap Fn) (cmdPtr : Nat) (junk : List Nat) : List Nat :=
  padTo BUF_LEN junk ++ (leEncode (A.addrOf .safe_resume) 8 ++ leEncode cmdPtr 8)

/-- Frame memory after the overflow `fread` performed inside `c3`. -/
def memAfter (A : AddrMap Fn) (cmdPtr : Nat) (junk input : List Nat) : List Nat :=
  overflowRead READ_LEN (initMem A cmdPtr junk) input

/-- Value of the `cmd` field (offset 40) after the overflow. -/
def cmdPtrValue (mem : List Nat) : Nat :=
  leDecode ((mem.drop 40).take 8)

/-- The string living at address `p`: `main` made `cmdPtr` point at
`argv[1]` (or at the literal `"echo SAFE"` when no argument was given);
`extStr` describes every other address (`none` = not a valid string). -/
def argAt (extStr : Nat → Option String) (cmdPtr : Nat) (argv1 : Option String)
    (p : Nat) : Option String :=
  if p = cmdPtr then some (argv1.getD "echo SAFE") else extStr p

/-- One run of the coroutine victim. `cmdPtr` is the address `main` stores
into `frame->cmd`; it points at `argv[1]` (or the literal `"echo SAFE"`);
`extStr` gives the strings living at all other addresses (`none` = no
string there). The coroutine chain `c1 -> c2 -> c3` prints its banner and
reads stdin between the address leak and the indirect call. -/
def run (A : AddrMap Fn) (extStr : Nat → Option String) (cmdPtr : Nat)
    (argv1 : Option String) (junk input : List Nat) : Outcome Fn :=
  let mem1 := memAfter A cmdPtr junk input
  let arg := argAt extStr cmdPtr argv1 (cmdPtrValue mem1)
  let pre : List (Event Fn) :=
    [.slotInit, .printAddr (A.addrOf .win), .printMsg "c3(): enter input\n",
     .readStdin READ_LEN]
  match resolve A (slotValue mem1) with
  | some f =>
      match call f arg with
      | some evs => ⟨pre ++ Event.invokeSlot (some f) arg :: evs, some 0⟩
      | none => ⟨pre ++ [Event.invokeSlot (some f) arg], none⟩
  | none => ⟨pre ++ [Event.invokeSlot none arg], none⟩

/-- A concrete non-PIE address layout for evaluation. -/
def testA : AddrMap Fn where
  addrOf f := match f with
    | .safe_resume => 4202496
    | .win => 4202560
  lt := by intro f; cases f <;> norm_num
  inj := by intro f g h; cases f <;> cases g <;> first | rfl | exact absurd h (by decide)

end Coro

/-! ## The step-0 password victim (second program in
`step3_coroutine_overflow.cpp`'s source file)

```
struct Frame { char buf[32]; void (*auth)(const char *); };
int main(int argc, char **argv) {
    struct Frame frame;
    frame.auth = check_password;
    printf("win() @ 0x%lx\n", (unsigned long)(uintptr_t)win);
    fread(frame.buf, 1, 200, stdin);
    frame.auth(argv[1]);
    return 0;
}
```

Note: unlike the other two victims, `main` passes `argv[1]` to the slot
directly, with no `"echo SAFE"` fallback — a null pointer when no
command-line argument is given. -/

namespace Step0

/-- The two functions of the step-0 variant. `win` here takes no argument
and just prints the marker. -/
inductive Fn where
  | win
  | check_password
  deriving DecidableEq

/-- Hard-coded `fread` length. -/
def READ_LEN : Nat := 200

/-- Declared buffer size (`char buf[32]`). -/
def BUF_LEN : Nat := 32

/-- Map a pointer value back to the function at that address, if any. -/
def resolve (A : AddrMap Fn) (v : Nat) : Option Fn :=
  if v = A.addrOf .check_password then some .check_password
  else if v = A.addrOf .win then some .win
  else none

/-- Events of `win(void)`: `printf("AUTHENTICATED...\n")`. -/
def winEvents : List (Event Fn) :=
  [.printMsg "AUTHENTICATED...\n"]

/-- `check_password`: calls `win()` exactly when
`strcmp(pass, "mypassword") == 0`, otherwise prints the failure line. -/
def check_password (pass : String) : List (Event Fn) :=
  if pass = "mypassword" then Event.callDirect "win" :: winEvents
  else [.printMsg "WRONG PASSWORD\n"]

/-- Behaviour when each function is invoked through the
`void (*)(const char *)` slot. `win` ignores the argument register;
`check_password` with a null pointer crashes inside `strcmp`. -/
def call : Fn → Option String → Option (List (Event Fn))
  | .win, _ => some winEvents
  | .check_password, some p => some (check_password p)
  | .check_password, none => none

/-- Frame memory right after `frame.auth = check_password`. -/
def initMem (A : AddrMap Fn) (junk : List Nat) : List Nat :=
  padTo BUF_LEN junk ++ leEncode (A.addrOf .check_password) 8

/-- Frame memory after the overflow `fread`. -/
def memAfter (A : AddrMap Fn) (junk input : List Nat) : List Nat :=
  overflowRead READ_LEN (initMem A junk) input

/-- One run of the step-0 victim: install `check_password`, print `win`'s
address, do the 200-byte overflow read, then call through the slot passing
`argv[1]` unguarded (`none` when the program got no argument). -/
def run (A : AddrMap Fn) (argv1 : Option String) (junk input : List Nat) :
    Outcome Fn :=
  let mem1 := memAfter A junk input
  let pre : List (Event Fn) :=
    [.slotInit, .printAddr (A.addrOf .win), .readStdin READ_LEN]
  match resolve A (slotValue mem1) with
  | some f =>
      match call f argv1 with
      | some evs => ⟨pre ++ Event.invokeSlot (some f) argv1 :: evs, some 0⟩
      | none => ⟨pre ++ [Event.invokeSlot (some f) argv1], none⟩
  | none => ⟨pre ++ [Event.invokeSlot none argv1], none⟩

/-- A concrete non-PIE address layout for evaluation. -/
def testA : AddrMap Fn where
  addrOf f := match f with
    | .win => 4198464
    | .check_password => 4198496
  lt := by intro f; cases f <;> norm_num
  inj := by intro f g h; cases f <;> cases g <;> first | rfl | exact absurd h (by decide)

end Step0

/-! ## The trivial RTSan example: `sanitizer/rtsan/real_time.cpp`

```
void violation() [[clang::nonblocking]] {
  std::vector<float> v;
  v.resize(100);  // allocates via malloc - triggers RTSan error!
}
void safe_realtime_fn() [[clang::nonblocking]] {
  float stack_buffer[100];
  (void)stack_buffer;
}
```
-/

namespace RealTime

/-- Primitive operations RTSan intercepts (unbounded-latency operations). -/
inductive Act where
  | alloc
  | dealloc
  | lockAcq
  | lockRel
  | condWait
  deriving DecidableEq

/-- Is the action a blocking operation proper (lock acquisition or
condition-wait)? -/
def blocksAct : Act → Bool
  | .lockAcq => true
  | .condWait => true
  | _ => false

/-- Is the action a dynamic memory allocation? -/
def isAlloc : Act → Bool
  | .alloc => true
  | _ => false

/-- Is the action a lock acquisition? -/
def isLockAcq : Act → Bool
  | .lockAcq => true
  | _ => false

/-- Intercepted primitives performed (transitively) by `violation()`:
`v.resize(100)` allocates via `malloc`, and the vector's destructor frees. -/
def violation_acts : List Act := [.alloc, .dealloc]

/-- `violation()` carries the `[[clang::nonblocking]]` attribute. -/
def violation_marked_nonblocking : Bool := true

/-- Intercepted primitives performed by `safe_realtime_fn()`: none — it
only touches a stack array. -/
def safe_realtime_fn_acts : List Act := []

/-- `safe_realtime_fn()` carries the `[[clang::nonblocking]]` attribute. -/
def safe_realtime_fn_marked_nonblocking : Bool := true

end RealTime

/-! ## The RTSan embedded-modem demo: `sanitizer/rtsan/esp_modem_rtsan.cpp`

Modelled state: the two shared atomics `g_cached_rssi` / `g_cached_ber`
and the recursion depth of the DTE's `internal_lock_`. Each function is
embedded as the list of primitive actions its execution performs. -/

namespace Modem

/-- The two shared atomic counters. -/
inductive GVar where
  | g_cached_rssi
  | g_cached_ber
  deriving DecidableEq

/-- Primitive actions of the demo: relaxed/seq-cst atomic loads and stores
of the shared counters, the lock operations on `internal_lock_`, heap
traffic, and entry into a function marked `[[clang::blocking]]`. -/
inductive Act where
  | atomicLoad (v : GVar) (relaxed : Bool)
  | atomicStore (v : GVar) (x : Int)
  | lockAcq
  | lockRel
  | alloc
  | dealloc
  | blockingEnter (fn : String)
  deriving DecidableEq

/-- The mutable program state the demo's callbacks can touch. -/
structure MState where
  rssi : Int
  ber : Int
  lockDepth : Nat
  deriving DecidableEq

/-- Effect of one action on the program state. -/
def applyAct (s : MState) : Act → MState
  | .atomicStore .g_cached_rssi x => { s with rssi := x }
  | .atomicStore .g_cached_ber x => { s with ber := x }
  | .lockAcq => { s with lockDepth := s.lockDepth + 1 }
  | .lockRel => { s with lockDepth := s.lockDepth - 1 }
  | _ => s

/-- Run a list of actions from a state. -/
def runActs (s : MState) (l : List Act) : MState :=
  l.foldl applyAct s

/-- Is the action a store to shared state? -/
def isStore : Act → Bool
  | .atomicStore _ _ => true
  | _ => false

/-- Is the action a load of shared state? -/
def isLoad : Act → Bool
  | .atomicLoad _ _ => true
  | _ => false

/-- Is the action a relaxed atomic load? -/
def isRelaxedLoad : Act → Bool
  | .atomicLoad _ relaxed => relaxed
  | _ => false

/-- Is the action a lock acquisition? -/
def isLockAcq : Act → Bool
  | .lockAcq => true
  | _ => false

/-- Is the action a dynamic allocation? -/
def isAlloc : Act → Bool
  | .alloc => true
  | _ => false

/-- Body of `SimpleDTE::command` (source lines 129–140): acquire
`internal_lock_` via `Scoped<Lock>`, allocate the response `std::string`
in `modem_.process`, run the parse callback (no intercepted primitive),
then destroy the string (free) and release the lock, in reverse
construction order. -/
def command_body_acts : List Act := [.lockAcq, .alloc, .dealloc, .lockRel]

/-- Calling `SimpleDTE::command`, which is marked `[[clang::blocking]]`:
the blocking-function entry followed by its body's primitives. -/
def command_acts : List Act :=
  Act.blockingEnter "SimpleDTE::command" :: command_body_acts

/-- Actions of `rt_timer_callback_safe` (source lines 237–246): two
relaxed atomic loads and nothing else. -/
def rt_timer_callback_safe_acts : List Act :=
  [.atomicLoad .g_cached_rssi true, .atomicLoad .g_cached_ber true]

/-- `rt_timer_callback_safe` carries `[[clang::nonblocking]]`. -/
def rt_timer_callback_safe_marked_nonblocking : Bool := true

/-- Actions of the non-blocking-marked buggy callback (source lines
259–265): `get_signal_quality` → `generic_command_with_parse` → `command`
(the whole blocking chain), then two seq-cst stores of the parsed values
(the canned `"+CSQ: 18,99"` response parses to rssi 18, ber 99). -/
def rt_callback_buggy_acts : List Act :=
  command_acts ++
    [.atomicStore .g_cached_rssi 18, .atomicStore .g_cached_ber 99]

/-- The buggy callback carries `[[clang::nonblocking]]`. -/
def rt_callback_buggy_marked_nonblocking : Bool := true

/-- Is an action one of the primitives the RTSan runtime intercepts
(locks, heap traffic, entry to a `[[clang::blocking]]` function)? -/
def intercepted : Act → Bool
  | .lockAcq => true
  | .lockRel => true
  | .alloc => true
  | .dealloc => true
  | .blockingEnter _ => true
  | _ => false

/-- Modelled from the spec: the RTSan runtime checker itself is external
toolchain infrastructure (compiler-rt), not part of this repository's
sources. Per spec §4.5/§8 and the repository's RTSan README: when a
function whose call stack is rooted in a `[[clang::nonblocking]]` context
executes, every intercepted primitive it reaches produces one diagnostic;
with abort-on-first-violation (`halt_on_error=true`, the default) only the
first diagnostic fires and the process aborts, otherwise all of them fire. -/
def rtsanDiagnostics (haltOnFirst markedNonblocking : Bool) (acts : List Act) :
    List Act :=
  if markedNonblocking then
    if haltOnFirst then (acts.filter intercepted).take 1
    else acts.filter intercepted
  else []

end Modem

/-! ## General lemmas about the byte-level model -/

theorem leEncode_length (v w : Nat) : (leEncode v w).length = w := by
  induction w generalizing v with
  | zero => rfl
  | succ w ih => simp [leEncode, ih]

theorem leDecode_leEncode (v w : Nat) : leDecode (leEncode v w) = v % 256 ^ w := by
  induction w generalizing v with
  | zero => simp [leEncode, leDecode, Nat.mod_one]
  | succ w ih =>
      simp only [leEncode, leDecode, ih]
      rw [Nat.mod_mod_of_dvd _ (dvd_refl 256), Nat.pow_succ,
        Nat.mul_comm (256 ^ w) 256, Nat.mod_mul]

theorem padTo_length (n : Nat) (l : List Nat) : (padTo n l).length = n := by
  simp only [padTo, List.length_append, List.length_take, List.length_replicate]
  omega

/-- Bytes written by the overflow never reach past index `k` when the input
is at most `k` bytes long: everything from offset `k` on is unchanged. -/
theorem drop_overflowRead (readLen k : Nat) (mem input : List Nat)
    (h : input.length ≤ k) :
    (overflowRead readLen mem input).drop k = mem.drop k := by
  have hn : writtenLen readLen input ≤ input.length := Nat.min_le_left _ _
  have hlen : (input.take (writtenLen readLen input)).length = writtenLen readLen input := by
    simp [List.length_take]; omega
  rw [overflowRead, List.drop_append_eq_append_drop, List.drop_eq_nil_of_le (by omega),
    List.nil_append, hlen, List.drop_drop]
  congr 1
  omega

/-- The slot of a freshly initialized frame (32-byte region, then the
encoded legitimate address, then anything) holds that address. -/
theorem slotValue_layout (p : List Nat) (hp : p.length = 32) (a : Nat)
    (ha : a < 2 ^ 64) (rest : List Nat) :
    slotValue (p ++ (leEncode a 8 ++ rest)) = a := by
  rw [slotValue, List.drop_left' hp, List.take_left' (leEncode_length a 8),
    leDecode_leEncode, Nat.mod_eq_of_lt]
  calc a < 2 ^ 64 := ha
    _ = 256 ^ 8 := by norm_num

/-- A payload of exactly 32 filler bytes plus an 8-byte encoded address
rewrites the whole 40-byte frame: the overflow read copies it verbatim. -/
theorem overflowRead_exact_payload (mem : List Nat) (hm : mem.length = 40)
    (filler : Nat) (a : Nat) :
    overflowRead 200 mem (List.replicate 32 filler ++ leEncode a 8)
      = List.replicate 32 filler ++ leEncode a 8 := by
  have hlen : (List.replicate 32 filler ++ leEncode a 8).length = 40 := by
    simp [leEncode_length]
  rw [overflowRead, writtenLen, hlen]
  norm_num
  rw [List.take_of_length_le (by omega), List.drop_eq_nil_of_le (by omega),
    List.append_nil]

/-! ## Address-resolution lemmas -/

theorem Simple_resolve_addr_safe (A : AddrMap Simple.Fn) :
    Simple.resolve A (A.addrOf .safe) = some .safe := by
  simp [Simple.resolve]

theorem Simple_resolve_addr_win (A : AddrMap Simple.Fn) :
    Simple.resolve A (A.addrOf .win) = some .win := by
  have h : A.addrOf Simple.Fn.win ≠ A.addrOf Simple.Fn.safe := by
    intro h; exact absurd (A.inj _ _ h) (by decide)
  simp [Simple.resolve, h]

theorem Coro_resolve_addr_safe (A : AddrMap Coro.Fn) :
    Coro.resolve A (A.addrOf .safe_resume) = some .safe_resume := by
  simp [Coro.resolve]

theorem Coro_resolve_addr_win (A : AddrMap Coro.Fn) :
    Coro.resolve A (A.addrOf .win) = some .win := by
  have h : A.addrOf Coro.Fn.win ≠ A.addrOf Coro.Fn.safe_resume := by
    intro h; exact absurd (A.inj _ _ h) (by decide)
  simp [Coro.resolve, h]

theorem Step0_resolve_addr_cp (A : AddrMap Step0.Fn) :
    Step0.resolve A (A.addrOf .check_password) = some .check_password := by
  simp [Step0.resolve]

theorem Step0_resolve_addr_win (A : AddrMap Step0.Fn) :
    Step0.resolve A (A.addrOf .win) = some .win := by
  have h : A.addrOf Step0.Fn.win ≠ A.addrOf Step0.Fn.check_password := by
    intro h; exact absurd (A.inj _ _ h) (by decide)
  simp [Step0.resolve, h]

/-! ## Trace-shape lemmas: every victim run is
`slotInit, printAddr win, (banner,) readStdin 200, invokeSlot …, callee events` -/

/-- Events a called function can emit: never a slot initialization, a
stdin read, an indirect invocation, or an address leak. -/
def calleeOnly {F : Type} (evs : List (Event F)) : Prop :=
  ∀ e ∈ evs, isSlotInit e = false ∧ isReadStdin e = false
    ∧ isInvoke e = false ∧ isPrintAddr e = false

theorem Simple_run_shape (A : AddrMap Simple.Fn) (argv1 : Option String)
    (junk input : List Nat) :
    ∃ evs : List (Event Simple.Fn),
      (Simple.run A argv1 junk input).trace
        = Event.slotInit :: Event.printAddr (A.addrOf .win)
            :: Event.readStdin Simple.READ_LEN
            :: Event.invokeSlot
                (Simple.resolve A (slotValue (Simple.memAfter A junk input)))
                (some (argv1.getD "echo SAFE"))
            :: evs
      ∧ calleeOnly evs := by
  simp only [Simple.run]
  cases hr : Simple.resolve A (slotValue (Simple.memAfter A junk input)) with
  | none => exact ⟨[], rfl, by simp [calleeOnly]⟩
  | some f =>
      cases f with
      | safe =>
          exact ⟨[.printMsg ("safe path: " ++ argv1.getD "echo SAFE" ++ "\n")], rfl,
            by simp [calleeOnly, isSlotInit, isReadStdin, isInvoke, isPrintAddr]⟩
      | win =>
          exact ⟨[.systemCmd (argv1.getD "echo SAFE")], rfl,
            by simp [calleeOnly, isSlotInit, isReadStdin, isInvoke, isPrintAddr]⟩

theorem Coro_run_shape (A : AddrMap Coro.Fn) (extStr : Nat → Option String)
    (cmdPtr : Nat) (argv1 : Option String) (junk input : List Nat) :
    ∃ evs : List (Event Coro.Fn),
      (Coro.run A extStr cmdPtr argv1 junk input).trace
        = Event.slotInit :: Event.printAddr (A.addrOf .win)
            :: Event.printMsg "c3(): enter input\n"
            :: Event.readStdin Coro.READ_LEN
            :: Event.invokeSlot
                (Coro.resolve A (slotValue (Coro.memAfter A cmdPtr junk input)))
                (Coro.argAt extStr cmdPtr argv1
                  (Coro.cmdPtrValue (Coro.memAfter A cmdPtr junk input)))
            :: evs
      ∧ calleeOnly evs := by
  simp only [Coro.run]
  cases hr : Coro.resolve A (slotValue (Coro.memAfter A cmdPtr junk input)) with
  | none => exact ⟨[], rfl, by simp [calleeOnly]⟩
  | some f =>
      cases ha : Coro.argAt extStr cmdPtr argv1
          (Coro.cmdPtrValue (Coro.memAfter A cmdPtr junk input)) with
      | none => cases f <;> exact ⟨[], rfl, by simp [calleeOnly]⟩
      | some s =>
          cases f with
          | safe_resume =>
              exact ⟨[.printMsg ("safe resume: " ++ s ++ "\n")], rfl,
                by simp [calleeOnly, isSlotInit, isReadStdin, isInvoke, isPrintAddr]⟩
          | win =>
              exact ⟨[.systemCmd s], rfl,
                by simp [calleeOnly, isSlotInit, isReadStdin, isInvoke, isPrintAddr]⟩

theorem Step0_run_shape (A : AddrMap Step0.Fn) (argv1 : Option String)
    (junk input : List Nat) :
    ∃ evs : List (Event Step0.Fn),
      (Step0.run A argv1 junk input).trace
        = Event.slotInit :: Event.printAddr (A.addrOf .win)
            :: Event.readStdin Step0.READ_LEN
            :: Event.invokeSlot
                (Step0.resolve A (slotValue (Step0.memAfter A junk input))) argv1
            :: evs
      ∧ calleeOnly evs := by
  simp only [Step0.run]
  cases hr : Step0.resolve A (slotValue (Step0.memAfter A junk input)) with
  | none => exact ⟨[], rfl, by simp [calleeOnly]⟩
  | some f =>
      cases f with
      | win =>
          exact ⟨Step0.winEvents, rfl,
            by simp [calleeOnly, Step0.winEvents, isSlotInit, isReadStdin, isInvoke,
              isPrintAddr]⟩
      | check_password =>
          cases argv1 with
          | none => exact ⟨[], rfl, by simp [calleeOnly]⟩
          | some p =>
              refine ⟨Step0.check_password p, rfl, ?_⟩
              by_cases hp : p = "mypassword" <;>
                simp [calleeOnly, Step0.check_password, Step0.winEvents, hp,
                  isSlotInit, isReadStdin, isInvoke, isPrintAddr]

/-- Lifecycle property for the 4-event prefix shape (simple and step-0
victims). -/
theorem lifecycleOk_shape4 {F : Type} (a n : Nat) (t : Option F)
    (arg : Option String) (evs : List (Event F)) (h : calleeOnly evs) :
    lifecycleOk (Event.slotInit :: Event.printAddr a :: Event.readStdin n ::
      Event.invokeSlot t arg :: evs) := by
  have h1 : evs.countP isSlotInit = 0 :=
    List.countP_eq_zero.mpr fun e he => by simp [(h e he).1]
  have h2 : evs.countP isReadStdin = 0 :=
    List.countP_eq_zero.mpr fun e he => by simp [(h e he).2.1]
  have h3 : evs.countP isInvoke = 0 :=
    List.countP_eq_zero.mpr fun e he => by simp [(h e he).2.2.1]
  refine ⟨?_, ?_, ?_, ?_, ?_⟩ <;>
    simp [lifecycleOk, List.countP_cons, List.findIdx_cons, h1, h2, h3,
      isSlotInit, isReadStdin, isInvoke]

/-- Lifecycle property for the 5-event prefix shape (coroutine victim,
which prints the `c3()` banner between the leak and the read). -/
theorem lifecycleOk_shape5 {F : Type} (a n : Nat) (s : String) (t : Option F)
    (arg : Option String) (evs : List (Event F)) (h : calleeOnly evs) :
    lifecycleOk (Event.slotInit :: Event.printAddr a :: Event.printMsg s ::
      Event.readStdin n :: Event.invokeSlot t arg :: evs) := by
  have h1 : evs.countP isSlotInit = 0 :=
    List.countP_eq_zero.mpr fun e he => by simp [(h e he).1]
  have h2 : evs.countP isReadStdin = 0 :=
    List.countP_eq_zero.mpr fun e he => by simp [(h e he).2.1]
  have h3 : evs.countP isInvoke = 0 :=
    List.countP_eq_zero.mpr fun e he => by simp [(h e he).2.2.1]
  refine ⟨?_, ?_, ?_, ?_, ?_⟩ <;>
    simp [lifecycleOk, List.countP_cons, List.findIdx_cons, h1, h2, h3,
      isSlotInit, isReadStdin, isInvoke]

/-- Address-leak property for the 4-event prefix shape. -/
theorem addrLineOk_shape4 {F : Type} (a n : Nat) (t : Option F)
    (arg : Option String) (evs : List (Event F)) (h : calleeOnly evs) :
    addrLineOk a (Event.slotInit :: Event.printAddr a :: Event.readStdin n ::
      Event.invokeSlot t arg :: evs) := by
  have h4 : evs.filter isPrintAddr = [] :=
    List.filter_eq_nil_iff.mpr fun e he => by simp [(h e he).2.2.2]
  refine ⟨?_, ?_⟩ <;>
    simp [addrLineOk, List.filter_cons, List.findIdx_cons, h4,
      isPrintAddr, isReadStdin]

/-- Address-leak property for the 5-event prefix shape. -/
theorem addrLineOk_shape5 {F : Type} (a n : Nat) (s : String) (t : Option F)
    (arg : Option String) (evs : List (Event F)) (h : calleeOnly evs) :
    addrLineOk a (Event.slotInit :: Event.printAddr a :: Event.printMsg s ::
      Event.readStdin n :: Event.invokeSlot t arg :: evs) := by
  have h4 : evs.filter isPrintAddr = [] :=
    List.filter_eq_nil_iff.mpr fun e he => by simp [(h e he).2.2.2]
  refine ⟨?_, ?_⟩ <;>
    simp [addrLineOk, List.filter_cons, List.findIdx_cons, h4,
      isPrintAddr, isReadStdin]

/-! ## The invocation's target and argument, extracted from the traces -/

theorem Simple_invokeArg_run (A : AddrMap Simple.Fn) (argv1 : Option String)
    (junk input : List Nat) :
    invokeArg (Simple.run A argv1 junk input) = some (some (argv1.getD "echo SAFE")) := by
  obtain ⟨evs, htr, -⟩ := Simple_run_shape A argv1 junk input
  simp [invokeArg, htr, List.findSome?_cons]

theorem Simple_invokeTarget_run (A : AddrMap Simple.Fn) (argv1 : Option String)
    (junk input : List Nat) :
    invokeTarget (Simple.run A argv1 junk input)
      = some (Simple.resolve A (slotValue (Simple.memAfter A junk input))) := by
  obtain ⟨evs, htr, -⟩ := Simple_run_shape A argv1 junk input
  simp [invokeTarget, htr, List.findSome?_cons]

theorem Coro_invokeArg_run (A : AddrMap Coro.Fn) (extStr : Nat → Option String)
    (cmdPtr : Nat) (argv1 : Option String) (junk input : List Nat) :
    invokeArg (Coro.run A extStr cmdPtr argv1 junk input)
      = some (Coro.argAt extStr cmdPtr argv1
          (Coro.cmdPtrValue (Coro.memAfter A cmdPtr junk input))) := by
  obtain ⟨evs, htr, -⟩ := Coro_run_shape A extStr cmdPtr argv1 junk input
  simp [invokeArg, htr, List.findSome?_cons]

theorem Coro_invokeTarget_run (A : AddrMap Coro.Fn) (extStr : Nat → Option String)
    (cmdPtr : Nat) (argv1 : Option String) (junk input : List Nat) :
    invokeTarget (Coro.run A extStr cmdPtr argv1 junk input)
      = some (Coro.resolve A (slotValue (Coro.memAfter A cmdPtr junk input))) := by
  obtain ⟨evs, htr, -⟩ := Coro_run_shape A extStr cmdPtr argv1 junk input
  simp [invokeTarget, htr, List.findSome?_cons]

theorem Step0_invokeArg_run (A : AddrMap Step0.Fn) (argv1 : Option String)
    (junk input : List Nat) :
    invokeArg (Step0.run A argv1 junk input) = some argv1 := by
  obtain ⟨evs, htr, -⟩ := Step0_run_shape A argv1 junk input
  simp [invokeArg, htr, List.findSome?_cons]

theorem Step0_invokeTarget_run (A : AddrMap Step0.Fn) (argv1 : Option String)
    (junk input : List Nat) :
    invokeTarget (Step0.run A argv1 junk input)
      = some (Step0.resolve A (slotValue (Step0.memAfter A junk input))) := by
  obtain ⟨evs, htr, -⟩ := Step0_run_shape A argv1 junk input
  simp [invokeTarget, htr, List.findSome?_cons]

/-! ## Slot values of the initialized and lightly-overflowed frames -/

theorem Simple_slotValue_initMem (A : AddrMap Simple.Fn) (junk : List Nat) :
    slotValue (Simple.initMem A junk) = A.addrOf .safe := by
  rw [Simple.initMem, ← List.append_nil (leEncode (A.addrOf Simple.Fn.safe) 8)]
  exact slotValue_layout _ (padTo_length _ _) _ (A.lt _) []

theorem Coro_slotValue_initMem (A : AddrMap Coro.Fn) (cmdPtr : Nat)
    (junk : List Nat) :
    slotValue (Coro.initMem A cmdPtr junk) = A.addrOf .safe_resume := by
  rw [Coro.initMem]
  exact slotValue_layout _ (padTo_length _ _) _ (A.lt _) _

theorem Step0_slotValue_initMem (A : AddrMap Step0.Fn) (junk : List Nat) :
    slotValue (Step0.initMem A junk) = A.addrOf .check_password := by
  rw [Step0.initMem, ← List.append_nil (leEncode (A.addrOf Step0.Fn.check_password) 8)]
  exact slotValue_layout _ (padTo_length _ _) _ (A.lt _) []

theorem Simple_slotValue_short (A : AddrMap Simple.Fn) (junk input : List Nat)
    (h : input.length ≤ 32) :
    slotValue (Simple.memAfter A junk input) = A.addrOf .safe := by
  have h0 := Simple_slotValue_initMem A junk
  rw [slotValue] at h0 ⊢
  rw [Simple.memAfter, drop_overflowRead _ 32 _ _ h]
  exact h0

theorem Coro_slotValue_short (A : AddrMap Coro.Fn) (cmdPtr : Nat)
    (junk input : List Nat) (h : input.length ≤ 32) :
    slotValue (Coro.memAfter A cmdPtr junk input) = A.addrOf .safe_resume := by
  have h0 := Coro_slotValue_initMem A cmdPtr junk
  rw [slotValue] at h0 ⊢
  rw [Coro.memAfter, drop_overflowRead _ 32 _ _ h]
  exact h0

theorem Step0_slotValue_short (A : AddrMap Step0.Fn) (junk input : List Nat)
    (h : input.length ≤ 32) :
    slotValue (Step0.memAfter A junk input) = A.addrOf .check_password := by
  have h0 := Step0_slotValue_initMem A junk
  rw [slotValue] at h0 ⊢
  rw [Step0.memAfter, drop_overflowRead _ 32 _ _ h]
  exact h0

/-- When at most 40 input bytes arrive, the coroutine frame's `cmd` field
still holds the pointer `main` stored there. -/
theorem Coro_cmdPtrValue_short (A : AddrMap Coro.Fn) (cmdPtr : Nat)
    (junk input : List Nat) (h : input.length ≤ 40) (hp : cmdPtr < 2 ^ 64) :
    Coro.cmdPtrValue (Coro.memAfter A cmdPtr junk input) = cmdPtr := by
  have hlen : (padTo Coro.BUF_LEN junk ++ leEncode (A.addrOf .safe_resume) 8).length
      = 40 := by
    simp [padTo_length, leEncode_length, Coro.BUF_LEN]
  rw [Coro.cmdPtrValue, Coro.memAfter, drop_overflowRead _ 40 _ _ h, Coro.initMem,
    ← List.append_assoc, List.drop_left' hlen,
    List.take_of_length_le (le_of_eq (leEncode_length _ _)), leDecode_leEncode,
    Nat.mod_eq_of_lt]
  calc cmdPtr < 2 ^ 64 := hp
    _ = 256 ^ 8 := by norm_num

/-! ## Claim theorems -/

/-! ## Claim theorems -/

/-- C1: In the simple overflow victim (`step1_overflow.c`, whose `Frame`
is a 32-byte buffer immediately followed by an 8-byte function-pointer
slot), feeding on stdin exactly 32 filler bytes `'A'` (byte 65) followed
by the little-endian 8-byte address of `win` leaves the slot holding
`win`'s address; the subsequent indirect call transfers control to `win`
with the command string as argument (`win` runs `system(cmd)`), and the
process (built without enforcement) exits with code 0. -/
theorem C1_simple_payload_redirects_to_win (A : AddrMap Simple.Fn)
    (argv1 : Option String) (junk : List Nat) :
    slotValue (Simple.memAfter A junk
        (List.replicate 32 65 ++ leEncode (A.addrOf .win) 8)) = A.addrOf .win
    ∧ (Simple.run A argv1 junk
        (List.replicate 32 65 ++ leEncode (A.addrOf .win) 8)).trace
      = [.slotInit, .printAddr (A.addrOf .win), .readStdin 200,
         .invokeSlot (some .win) (some (argv1.getD "echo SAFE")),
         .systemCmd (argv1.getD "echo SAFE")]
    ∧ (Simple.run A argv1 junk
        (List.replicate 32 65 ++ leEncode (A.addrOf .win) 8)).exit = some 0 := by
  have hmem : Simple.memAfter A junk (List.replicate 32 65 ++ leEncode (A.addrOf .win) 8)
      = List.replicate 32 65 ++ leEncode (A.addrOf .win) 8 := by
    rw [Simple.memAfter, Simple.initMem]
    exact overflowRead_exact_payload _
      (by simp [padTo_length, leEncode_length, Simple.BUF_LEN]) 65 _
  have hslot : slotValue (Simple.memAfter A junk
      (List.replicate 32 65 ++ leEncode (A.addrOf .win) 8)) = A.addrOf .win := by
    rw [hmem]
    have := slotValue_layout (List.replicate 32 65) (by simp) (A.addrOf .win)
      (A.lt _) []
    simpa using this
  have hrun : Simple.run A argv1 junk
      (List.replicate 32 65 ++ leEncode (A.addrOf .win) 8)
      = ⟨[.slotInit, .printAddr (A.addrOf .win), .readStdin 200,
          .invokeSlot (some .win) (some (argv1.getD "echo SAFE")),
          .systemCmd (argv1.getD "echo SAFE")], some 0⟩ := by
    simp only [Simple.run]
    rw [hslot, Simple_resolve_addr_win]
    rfl
  exact ⟨hslot, by rw [hrun], by rw [hrun]⟩

/-- C2: every overflow victim (simple, coroutine, step-0) reads its stdin
payload with a hard-coded requested length of exactly 200 bytes into a
buffer declared with exactly 32 bytes, and the number of bytes the
unchecked read deposits is `min available 200` — no comparison against
the buffer length is ever made, so any input longer than the buffer
overruns it. -/
theorem C2_fixed_200_byte_read_into_32_byte_buffer :
    (Simple.READ_LEN = 200 ∧ Simple.BUF_LEN = 32)
    ∧ (Coro.READ_LEN = 200 ∧ Coro.BUF_LEN = 32)
    ∧ (Step0.READ_LEN = 200 ∧ Step0.BUF_LEN = 32)
    ∧ (∀ input : List Nat,
        writtenLen Simple.READ_LEN input = min input.length 200
        ∧ writtenLen Coro.READ_LEN input = min input.length 200
        ∧ writtenLen Step0.READ_LEN input = min input.length 200)
    ∧ (∀ input : List Nat, Simple.BUF_LEN < input.length →
        Simple.BUF_LEN < writtenLen Simple.READ_LEN input
        ∧ Coro.BUF_LEN < writtenLen Coro.READ_LEN input
        ∧ Step0.BUF_LEN < writtenLen Step0.READ_LEN input) := by
  refine ⟨⟨rfl, rfl⟩, ⟨rfl, rfl⟩, ⟨rfl, rfl⟩, fun input => ⟨rfl, rfl, rfl⟩,
    fun input h => ?_⟩
  simp only [writtenLen, Simple.READ_LEN, Simple.BUF_LEN, Coro.READ_LEN,
    Coro.BUF_LEN, Step0.READ_LEN, Step0.BUF_LEN] at h ⊢
  omega

/-- Witness for C2 at a concrete 33-byte input. -/
theorem C2_witness :
    Simple.BUF_LEN < (List.replicate 33 65).length
    ∧ (Simple.BUF_LEN < writtenLen Simple.READ_LEN (List.replicate 33 65)
       ∧ Coro.BUF_LEN < writtenLen Coro.READ_LEN (List.replicate 33 65)
       ∧ Step0.BUF_LEN < writtenLen Step0.READ_LEN (List.replicate 33 65)) :=
  ⟨by decide,
   (C2_fixed_200_byte_read_into_32_byte_buffer).2.2.2.2 (List.replicate 33 65)
     (by decide)⟩

/-- C3 counterexample: the claim says every victim passes an inert
placeholder (never a null pointer) when the first command-line argument
is omitted; but the step-0 victim run with no argument invokes its slot
with a null argument (`none`), not the placeholder. -/
theorem C3_counterexample_step0_passes_null :
    invokeArg (Step0.run Step0.testA none [] []) = some none
    ∧ invokeArg (Step0.run Step0.testA none [] []) ≠ some (some "echo SAFE") := by
  refine ⟨Step0_invokeArg_run Step0.testA none [] [], ?_⟩
  rw [Step0_invokeArg_run]
  simp

/-- C3 (amended): the simple victim passes `argv[1]`, defaulting to the
placeholder `"echo SAFE"` when the argument is omitted, and the coroutine
victim stores a pointer to the same defaulted string into the frame
(passed whenever the payload does not reach the `cmd` field, i.e. at most
40 bytes); the step-0 victim, by contrast, passes `argv[1]` unguarded —
a null pointer when the argument is omitted. -/
theorem C3_amended_default_cmd
    (A1 : AddrMap Simple.Fn) (A2 : AddrMap Coro.Fn) (A3 : AddrMap Step0.Fn)
    (extStr : Nat → Option String) (cmdPtr : Nat) (argv1 : Option String)
    (junk input : List Nat) (hp : cmdPtr < 2 ^ 64) (hi : input.length ≤ 40) :
    invokeArg (Simple.run A1 argv1 junk input)
      = some (some (argv1.getD "echo SAFE"))
    ∧ invokeArg (Coro.run A2 extStr cmdPtr argv1 junk input)
        = some (some (argv1.getD "echo SAFE"))
    ∧ invokeArg (Step0.run A3 argv1 junk input) = some argv1 := by
  refine ⟨Simple_invokeArg_run A1 argv1 junk input, ?_,
    Step0_invokeArg_run A3 argv1 junk input⟩
  rw [Coro_invokeArg_run, Coro_cmdPtrValue_short A2 cmdPtr junk input hi hp]
  simp [Coro.argAt]

/-- Witness for the amended C3 at concrete inputs. -/
theorem C3_amended_witness :
    ((4096 : Nat) < 2 ^ 64 ∧ ([] : List Nat).length ≤ 40)
    ∧ invokeArg (Coro.run Coro.testA (fun _ => none) 4096 none [] [])
        = some (some "echo SAFE") :=
  ⟨⟨by norm_num, by decide⟩,
   (C3_amended_default_cmd Simple.testA Coro.testA Step0.testA
      (fun _ => none) 4096 none [] [] (by norm_num) (by decide)).2.1⟩

/-- C4: in every overflow victim's run, the slot is initialized to the
legitimate function before any input is read, the frame is mutated
exactly once (the single overflow read), and the slot is read and invoked
exactly once, after the mutation — no second read, no second invocation. -/
theorem C4_frame_lifecycle :
    (∀ (A : AddrMap Simple.Fn) (junk : List Nat),
      slotValue (Simple.initMem A junk) = A.addrOf .safe)
    ∧ (∀ (A : AddrMap Coro.Fn) (cmdPtr : Nat) (junk : List Nat),
      slotValue (Coro.initMem A cmdPtr junk) = A.addrOf .safe_resume)
    ∧ (∀ (A : AddrMap Step0.Fn) (junk : List Nat),
      slotValue (Step0.initMem A junk) = A.addrOf .check_password)
    ∧ (∀ (A : AddrMap Simple.Fn) (argv1 : Option String) (junk input : List Nat),
      lifecycleOk (Simple.run A argv1 junk input).trace)
    ∧ (∀ (A : AddrMap Coro.Fn) (extStr : Nat → Option String) (cmdPtr : Nat)
        (argv1 : Option String) (junk input : List Nat),
      lifecycleOk (Coro.run A extStr cmdPtr argv1 junk input).trace)
    ∧ (∀ (A : AddrMap Step0.Fn) (argv1 : Option String) (junk input : List Nat),
      lifecycleOk (Step0.run A argv1 junk input).trace) := by
  refine ⟨Simple_slotValue_initMem, Coro_slotValue_initMem, Step0_slotValue_initMem,
    fun A argv1 junk input => ?_, fun A extStr cmdPtr argv1 junk input => ?_,
    fun A argv1 junk input => ?_⟩
  · obtain ⟨evs, htr, hc⟩ := Simple_run_shape A argv1 junk input
    rw [htr]
    exact lifecycleOk_shape4 _ _ _ _ _ hc
  · obtain ⟨evs, htr, hc⟩ := Coro_run_shape A extStr cmdPtr argv1 junk input
    rw [htr]
    exact lifecycleOk_shape5 _ _ _ _ _ _ hc
  · obtain ⟨evs, htr, hc⟩ := Step0_run_shape A argv1 junk input
    rw [htr]
    exact lifecycleOk_shape4 _ _ _ _ _ hc

/-- C7: every overflow victim prints, before reading any stdin byte,
exactly one line carrying the resolved address of `win`. -/
theorem C7_win_address_printed_before_input :
    (∀ (A : AddrMap Simple.Fn) (argv1 : Option String) (junk input : List Nat),
      addrLineOk (A.addrOf Simple.Fn.win) (Simple.run A argv1 junk input).trace)
    ∧ (∀ (A : AddrMap Coro.Fn) (extStr : Nat → Option String) (cmdPtr : Nat)
        (argv1 : Option String) (junk input : List Nat),
      addrLineOk (A.addrOf Coro.Fn.win)
        (Coro.run A extStr cmdPtr argv1 junk input).trace)
    ∧ (∀ (A : AddrMap Step0.Fn) (argv1 : Option String) (junk input : List Nat),
      addrLineOk (A.addrOf Step0.Fn.win) (Step0.run A argv1 junk input).trace) := by
  refine ⟨fun A argv1 junk input => ?_, fun A extStr cmdPtr argv1 junk input => ?_,
    fun A argv1 junk input => ?_⟩
  · obtain ⟨evs, htr, hc⟩ := Simple_run_shape A argv1 junk input
    rw [htr]
    exact addrLineOk_shape4 _ _ _ _ _ hc
  · obtain ⟨evs, htr, hc⟩ := Coro_run_shape A extStr cmdPtr argv1 junk input
    rw [htr]
    exact addrLineOk_shape5 _ _ _ _ _ _ hc
  · obtain ⟨evs, htr, hc⟩ := Step0_run_shape A argv1 junk input
    rw [htr]
    exact addrLineOk_shape4 _ _ _ _ _ hc

/-- C9: when stdin supplies at most 32 bytes, the overflow read stays
inside the buffer: the slot still holds the legitimate function installed
at initialization, and the invocation targets that function, in all three
victims. -/
theorem C9_short_input_preserves_slot
    (A1 : AddrMap Simple.Fn) (A2 : AddrMap Coro.Fn) (A3 : AddrMap Step0.Fn)
    (extStr : Nat → Option String) (cmdPtr : Nat) (argv1 : Option String)
    (junk input : List Nat) (h : input.length ≤ 32) :
    slotValue (Simple.memAfter A1 junk input) = A1.addrOf .safe
    ∧ invokeTarget (Simple.run A1 argv1 junk input) = some (some .safe)
    ∧ slotValue (Coro.memAfter A2 cmdPtr junk input) = A2.addrOf .safe_resume
    ∧ invokeTarget (Coro.run A2 extStr cmdPtr argv1 junk input)
        = some (some .safe_resume)
    ∧ slotValue (Step0.memAfter A3 junk input) = A3.addrOf .check_password
    ∧ invokeTarget (Step0.run A3 argv1 junk input)
        = some (some .check_password) := by
  refine ⟨Simple_slotValue_short A1 junk input h, ?_,
    Coro_slotValue_short A2 cmdPtr junk input h, ?_,
    Step0_slotValue_short A3 junk input h, ?_⟩
  · rw [Simple_invokeTarget_run, Simple_slotValue_short A1 junk input h,
      Simple_resolve_addr_safe]
  · rw [Coro_invokeTarget_run, Coro_slotValue_short A2 cmdPtr junk input h,
      Coro_resolve_addr_safe]
  · rw [Step0_invokeTarget_run, Step0_slotValue_short A3 junk input h,
      Step0_resolve_addr_cp]

/-- Witness for C9 on empty stdin with concrete address layouts. -/
theorem C9_witness :
    ([] : List Nat).length ≤ 32
    ∧ invokeTarget (Simple.run Simple.testA none [] [])
        = some (some Simple.Fn.safe) :=
  ⟨by decide,
   (C9_short_input_preserves_slot Simple.testA Coro.testA Step0.testA
      (fun _ => none) 4096 none [] [] (by decide)).2.1⟩

/-- C10: `check_password` calls `win` (which prints the AUTHENTICATED
marker) exactly when the password string equals `"mypassword"`, and for
every other string it prints only WRONG PASSWORD. -/
theorem C10_check_password_iff (p : String) :
    (Event.callDirect "win" ∈ Step0.check_password p ↔ p = "mypassword")
    ∧ (p = "mypassword" →
        Step0.check_password p
          = [Event.callDirect "win", Event.printMsg "AUTHENTICATED...\n"])
    ∧ (p ≠ "mypassword" →
        Step0.check_password p = [Event.printMsg "WRONG PASSWORD\n"]) := by
  by_cases hp : p = "mypassword" <;>
    simp [Step0.check_password, Step0.winEvents, hp]

/-- Witness for C10 at the correct password and at a wrong one. -/
theorem C10_witness :
    Step0.check_password "mypassword"
      = [Event.callDirect "win", Event.printMsg "AUTHENTICATED...\n"]
    ∧ Step0.check_password "hunter2" = [Event.printMsg "WRONG PASSWORD\n"] :=
  ⟨(C10_check_password_iff "mypassword").2.1 rfl,
   (C10_check_password_iff "hunter2").2.2 (by simp)⟩

/-- C5: executing the non-blocking-marked buggy timer callback under the
modelled RTSan runtime: with abort-on-first-violation set, the single
diagnostic is the blocking-call on `SimpleDTE::command` — the call whose
body's first intercepted action is the lock acquisition — and with
abort disabled exactly five diagnostics fire, one per intercepted
primitive in the chain rooted at the callback. -/
theorem C5_rtsan_diagnostic_counts :
    Modem.rtsanDiagnostics true Modem.rt_callback_buggy_marked_nonblocking
        Modem.rt_callback_buggy_acts
      = [Modem.Act.blockingEnter "SimpleDTE::command"]
    ∧ Modem.command_body_acts.head? = some Modem.Act.lockAcq
    ∧ (Modem.rtsanDiagnostics false Modem.rt_callback_buggy_marked_nonblocking
        Modem.rt_callback_buggy_acts).length = 5
    ∧ Modem.rtsanDiagnostics false Modem.rt_callback_buggy_marked_nonblocking
        Modem.rt_callback_buggy_acts
      = [Modem.Act.blockingEnter "SimpleDTE::command", .lockAcq, .alloc,
         .dealloc, .lockRel] :=
  ⟨rfl, rfl, rfl, rfl⟩

/-- C6: the non-blocking-marked safe timer callback only performs relaxed
atomic loads of the two cached counters: it stores nothing, takes no lock,
allocates nothing, and leaves every piece of modelled program state
unchanged. -/
theorem C6_safe_callback_reads_only (s : Modem.MState) :
    Modem.runActs s Modem.rt_timer_callback_safe_acts = s
    ∧ Modem.rt_timer_callback_safe_marked_nonblocking = true
    ∧ Modem.rt_timer_callback_safe_acts.countP Modem.isStore = 0
    ∧ Modem.rt_timer_callback_safe_acts.countP Modem.isLockAcq = 0
    ∧ Modem.rt_timer_callback_safe_acts.countP Modem.isAlloc = 0
    ∧ Modem.rt_timer_callback_safe_acts.all Modem.isRelaxedLoad = true
    ∧ Modem.Act.atomicLoad .g_cached_rssi true ∈ Modem.rt_timer_callback_safe_acts
    ∧ Modem.Act.atomicLoad .g_cached_ber true ∈ Modem.rt_timer_callback_safe_acts :=
  ⟨rfl, rfl, rfl, rfl, rfl, rfl, by simp [Modem.rt_timer_callback_safe_acts],
   by simp [Modem.rt_timer_callback_safe_acts]⟩

/-- C8: in the trivial RTSan example, `violation` — declared
`[[clang::nonblocking]]` — transitively performs a dynamic allocation,
while `safe_realtime_fn`, declared the same way, performs no allocation,
no lock acquisition, and no blocking operation. -/
theorem C8_trivial_rtsan_example :
    RealTime.violation_marked_nonblocking = true
    ∧ RealTime.Act.alloc ∈ RealTime.violation_acts
    ∧ RealTime.safe_realtime_fn_marked_nonblocking = true
    ∧ RealTime.safe_realtime_fn_acts.countP RealTime.isAlloc = 0
    ∧ RealTime.safe_realtime_fn_acts.countP RealTime.isLockAcq = 0
    ∧ RealTime.safe_realtime_fn_acts.countP RealTime.blocksAct = 0 :=
  ⟨rfl, by simp [RealTime.violation_acts], rfl, rfl, rfl, rfl⟩

end SystemSecurityLab
